import Mathlib

/-
Verification of the bouncerate-backendv2 competitor-discovery pipeline.

Shallow embedding of the Go sources:
  internal/services/competitor_service.go  (orchestrator: SearchCompetitors,
    processCompetitor, filterRelevantURLs)
  internal/services/firecrawl_service.go   (RateLimiter, ScrapeWebsite parsing,
    crawl submission / status client)
  unnamed AnalysisService file             (CalculateAveragePrice)

Conventions: Go's float64 values are modelled as exact rationals (the claims
verified here concern control flow, guards and which values flow where, not
IEEE rounding); fallible Go functions returning (T, error) become
Except String T; external network collaborators become oracle functions
carried in an environment record; the goroutine fan-out of SearchCompetitors
is modelled in submission order (the claims proved about it are insensitive
to the completion order of tasks), and the capacity-5 semaphore channel is
modelled as an explicit step relation on task phases.
-/

/-! ## Strings: Go strings.Contains / strings.ToLower -/

/-- Does the list p occur at the start of l?  (models the prefix test that
underlies Go strings.Contains). -/
def listStartsWith : List Char → List Char → Bool
  | [], _ => true
  | _ :: _, [] => false
  | a :: as, b :: bs => a == b && listStartsWith as bs

/-- Does sub occur contiguously anywhere in l?  Models Go strings.Contains
on the underlying character sequences. -/
def listContainsSub (l sub : List Char) : Bool :=
  match l with
  | [] => sub.isEmpty
  | _ :: t => listStartsWith sub l || listContainsSub t sub

/-- Go strings.Contains(s, sub). -/
def containsSub (s sub : String) : Bool :=
  listContainsSub s.data sub.data

/-- ASCII case mapping of one character.  Models Go strings.ToLower, which on
ASCII letters adds 32 to the code point; Lean's own String.toLower is not
kernel-reducible, so the mapping is spelled out here. -/
def charToLower (c : Char) : Char :=
  if 'A' ≤ c && c ≤ 'Z' then Char.ofNat (c.toNat + 32) else c

/-- Go strings.ToLower (ASCII fragment; every keyword and every concrete URL
in this development is ASCII, where this agrees with Go). -/
def strToLower (s : String) : String :=
  ⟨s.data.map charToLower⟩

/-! ## Data model (competitor_service.go) -/

/-- Go type Product (competitor_service.go).  Price is float64 in Go,
modelled as a rational. -/
structure Product where
  Name : String
  Price : Rat
  URL : String
  Category : String
deriving DecidableEq, Repr

/-- Go type Competitor (competitor_service.go). -/
structure Competitor where
  Name : String
  Website : String
  Products : List Product
deriving DecidableEq, Repr

/-- Go type CompetitorSearchResult (competitor_service.go). -/
structure CompetitorSearchResult where
  Competitors : List Competitor
  Location : String
  TotalFound : Nat
deriving DecidableEq, Repr

/-! ## filterRelevantURLs (competitor_service.go lines 224-241) -/

/-- The fixed keyword list of filterRelevantURLs. -/
def keywords : List String :=
  ["/products", "/rentals", "/inventory",
   "/bounce-house", "/inflatables",
   "/catalog", "/equipment", "/items"]

/-- The inner keyword loop of filterRelevantURLs: the url is kept as soon as
one keyword is contained in strings.ToLower(url) (the break in the Go loop). -/
def urlMatches (url : String) : Bool :=
  keywords.any (fun kw => containsSub (strToLower url) kw)

/-- Go filterRelevantURLs: appends url to the result when some keyword is a
substring of the lowercased url. -/
def filterRelevantURLs : List String → List String
  | [] => []
  | url :: rest =>
    if urlMatches url then url :: filterRelevantURLs rest
    else filterRelevantURLs rest

theorem filterRelevantURLs_eq_filter (urls : List String) :
    filterRelevantURLs urls = urls.filter urlMatches := by
  induction urls with
  | nil => rfl
  | cons u rest ih =>
    by_cases h : urlMatches u
    · simp [filterRelevantURLs, List.filter, h, ih]
    · simp [filterRelevantURLs, List.filter, h, ih]

/-! The claim C7 compares the filter against a path-only rule.  The path of a
URL is not computed anywhere in the source; the following two definitions are
modelled from the claim's words ("the URL's path, compared case-insensitively,
contains at least one keyword"), to be compared with filterRelevantURLs. -/

/-- Modelled from the spec: the characters after the "://" scheme separator,
or the whole string when there is none. -/
def afterScheme (cs : List Char) : List Char :=
  match cs with
  | [] => []
  | _ :: t =>
    if listStartsWith [':', '/', '/'] cs then t.drop 2
    else afterScheme t

/-- Modelled from the spec: the path component of a URL (from the first '/'
after the authority, up to a '?' or '#'). -/
def urlPath (u : String) : String :=
  let a := afterScheme u.data
  let p := a.dropWhile (fun c => c ≠ '/')
  ⟨p.takeWhile (fun c => c ≠ '?' && c ≠ '#')⟩

/-- Modelled from the spec: the keyword decision the claim describes, taken
on the path component alone. -/
def pathMatches (u : String) : Bool :=
  keywords.any (fun kw => containsSub (strToLower (urlPath u)) kw)

/-- C7 counterexample: the claim "the filter keeps a URL if and only if the
URL's path, compared case-insensitively, contains at least one keyword;
the keyword match is decided by the path component alone" is false on the
code: filterRelevantURLs tests the whole lowercased URL string, so the URL
https://products.example.com/about (host contains "/products" as a substring
of "//products...", path "/about" contains no keyword) is kept. -/
theorem filterRelevantURLs_path_only_counterexample :
    ¬ (∀ (urls : List String) (u : String),
        u ∈ filterRelevantURLs urls ↔ (u ∈ urls ∧ pathMatches u = true)) := by
  intro h
  have h2 := (h ["https://products.example.com/about"]
      "https://products.example.com/about").mp (by decide)
  have h3 : pathMatches "https://products.example.com/about" = false := by decide
  rw [h3] at h2
  exact Bool.false_ne_true h2.2

/-- C7 (amended): filterRelevantURLs keeps a URL if and only if the whole URL
string, lowercased, contains at least one keyword of the fixed set; the match
is decided on the full URL (scheme, host, path and query included), not on
the path component alone. -/
theorem filterRelevantURLs_mem_iff (urls : List String) (u : String) :
    u ∈ filterRelevantURLs urls ↔
      (u ∈ urls ∧ (keywords.any fun kw => containsSub (strToLower u) kw) = true) := by
  rw [filterRelevantURLs_eq_filter, List.mem_filter]
  rfl

/-- C8: filterRelevantURLs is idempotent, and order-preserving with no
deduplication: its output is a sublist of its input (kept URLs appear in
their original relative order), and every URL that matches the keyword set
keeps its full multiplicity while non-matching URLs are removed.
Determinism is immediate: the filter is a pure function of its input. -/
theorem filterRelevantURLs_idempotent_order_preserving (x : List String) :
    filterRelevantURLs (filterRelevantURLs x) = filterRelevantURLs x ∧
    List.Sublist (filterRelevantURLs x) x ∧
    ∀ u : String, (filterRelevantURLs x).count u =
      if urlMatches u then x.count u else 0 := by
  refine ⟨?_, ?_, ?_⟩
  · rw [filterRelevantURLs_eq_filter, filterRelevantURLs_eq_filter,
      List.filter_filter]
    apply List.filter_congr
    intro u _
    cases h : urlMatches u <;> simp [h]
  · rw [filterRelevantURLs_eq_filter]
    exact List.filter_sublist x
  · intro u
    rw [filterRelevantURLs_eq_filter]
    by_cases h : urlMatches u = true
    · rw [if_pos h]
      exact List.count_filter (by simp [h])
    · rw [if_neg h]
      rw [List.count_eq_zero]
      intro hmem
      rw [List.mem_filter] at hmem
      exact h hmem.2

/-! ## RateLimiter (firecrawl_service.go lines 51-94) -/

/-- Go type RateLimiter.  tokens and maxTokens are Go ints; the mutex and the
ticker interval govern real time and are not part of the token-count state. -/
structure RateLimiter where
  tokens : Int
  maxTokens : Int
deriving DecidableEq, Repr

/-- Go RateLimiter.Allow: under the mutex, if tokens > 0 decrement and return
true, else return false.  Modelled as a state transformer returning the
decision and the successor state. -/
def RateLimiter.Allow (rl : RateLimiter) : Bool × RateLimiter :=
  if 0 < rl.tokens then (true, { rl with tokens := rl.tokens - 1 })
  else (false, rl)

/-- Go RateLimiter.refillTokens, one ticker firing: under the mutex, if
tokens < maxTokens increment tokens. -/
def RateLimiter.refillTick (rl : RateLimiter) : RateLimiter :=
  if rl.tokens < rl.maxTokens then { rl with tokens := rl.tokens + 1 }
  else rl

/-- C6: Allow returns true exactly when at least one token is present (in
particular it never returns true at zero tokens); when it returns true the
token count goes down by one, when it returns false the state is unchanged;
the capacity field is never modified. -/
theorem RateLimiter_Allow_spec (rl : RateLimiter) :
    (rl.Allow.1 = decide (0 < rl.tokens)) ∧
    (rl.Allow.2.tokens = if 0 < rl.tokens then rl.tokens - 1 else rl.tokens) ∧
    (rl.Allow.2.maxTokens = rl.maxTokens) := by
  unfold RateLimiter.Allow
  by_cases h : 0 < rl.tokens
  · rw [if_pos h]
    simp [h]
  · rw [if_neg h]
    simp [h]

/-! ## Collaborator responses (firecrawl_service.go, googlemaps client) -/

/-- Go type MapResponse (firecrawl_service.go).  Links is a Go slice that can
be nil, hence the Option. -/
structure MapResponse where
  Success : Bool
  Error : String
  Links : Option (List String)
deriving DecidableEq, Repr

/-- The firecrawl library's CrawlResponse as used by processCompetitor: the
success flag and the job id of a submitted crawl. -/
structure CrawlSubmitResponse where
  Success : Bool
  ID : String
deriving DecidableEq, Repr

/-- One firecrawl.FirecrawlDocument: the links discovered in one crawled
document. -/
structure FirecrawlDocument where
  Links : List String
deriving DecidableEq, Repr

/-- The firecrawl library's CrawlStatusResponse as consumed by
processCompetitor.  The Status field is carried so that the environment can
describe terminal and non-terminal jobs; the code itself never reads it. -/
structure CrawlStatusResponse where
  Status : String
  Data : List FirecrawlDocument
deriving DecidableEq, Repr

/-- One maps.PlacesSearchResult as used by SearchCompetitors. -/
structure PlacesSearchResult where
  PlaceID : String
  Name : String
deriving DecidableEq, Repr

/-- One maps.PlaceDetailsResult as used by SearchCompetitors (only the
Website field is requested). -/
structure PlaceDetailsResult where
  Website : String
deriving DecidableEq, Repr

/-- The FirecrawlClient collaborator as seen by processCompetitor: each
method is an oracle that may fail.  getCrawlStatus is indexed by the attempt
number so that repeated polling of one job id is representable; the code of
this revision consults attempt 0 only. -/
structure FirecrawlAPI where
  mapWebsite : String → Except String MapResponse
  crawlWebsite : String → Except String CrawlSubmitResponse
  getCrawlStatus : String → Nat → Except String CrawlStatusResponse
  scrapeWebsite : String → Except String Product

/-- The environment of SearchCompetitors: the Places client plus the
firecrawl client. -/
structure SearchEnv where
  textSearch : String → Except String (List PlacesSearchResult)
  placeDetails : String → Except String PlaceDetailsResult
  api : FirecrawlAPI

/-! ## processCompetitor (competitor_service.go lines 157-222) -/

/-- Links collected from every FirecrawlDocument of a status response
(the append loop over statusResponse.Data). -/
def collectLinks : List FirecrawlDocument → List String
  | [] => []
  | doc :: rest => doc.Links ++ collectLinks rest

/-- The URL-determination phase of processCompetitor (everything before the
extraction loop): map the website (an error falls through to the crawl
fallback with no links); when no relevant URL survives the filter, submit a
crawl (an error here is returned), and if the submission reports Success,
check the crawl status once (an error here is returned) and filter the
collected document links; a non-Success submission falls through with no
URLs. -/
def urlPhase (api : FirecrawlAPI) (website : String) :
    Except String (List String) :=
  let mapped : List String :=
    match api.mapWebsite website with
    | .error _ => []
    | .ok resp =>
      match resp.Links with
      | none => []
      | some links => filterRelevantURLs links
  if mapped.isEmpty then
    match api.crawlWebsite website with
    | .error e => .error e
    | .ok cr =>
      if cr.Success then
        match api.getCrawlStatus cr.ID 0 with
        | .error e => .error e
        | .ok st => .ok (filterRelevantURLs (collectLinks st.Data))
      else .ok []
  else .ok mapped

/-- The extraction loop of processCompetitor: for every relevant URL, scrape
it; a failed extraction is skipped (continue), a successful one appends its
product. -/
def extractLoop (scrape : String → Except String Product) :
    List String → List Product
  | [] => []
  | url :: rest =>
    match scrape url with
    | .error _ => extractLoop scrape rest
    | .ok p => p :: extractLoop scrape rest

/-- Go processCompetitor: determine the relevant URLs, extract products from
each, and return no competitor (and no error) when no product was found,
else the assembled competitor. -/
def processCompetitor (api : FirecrawlAPI) (name website : String) :
    Except String (Option Competitor) :=
  match urlPhase api website with
  | .error e => .error e
  | .ok urls =>
    if (extractLoop api.scrapeWebsite urls).isEmpty then .ok none
    else .ok (some { Name := name, Website := website,
                     Products := extractLoop api.scrapeWebsite urls })

/-- The products the pipeline extracts for one website: none on the error
paths of the URL phase, else the extraction loop's output. -/
def pipelineProducts (api : FirecrawlAPI) (website : String) : List Product :=
  match urlPhase api website with
  | .error _ => []
  | .ok urls => extractLoop api.scrapeWebsite urls

/-! ## SearchCompetitors (competitor_service.go lines 77-155) -/

/-- The outcome of one spawned task: an error sent to the errs channel, a
silent skip (no website, or no products), or a competitor sent to the
results channel. -/
inductive TaskOutcome where
  | errored (e : String)
  | skipped
  | emitted (c : Competitor)
deriving DecidableEq, Repr

/-- The body of one goroutine of SearchCompetitors: place details (an error
is sent to errs), skip when the website is empty, then processCompetitor (an
error is sent to errs; a nil competitor emits nothing). -/
def runTask (env : SearchEnv) (place : PlacesSearchResult) : TaskOutcome :=
  match env.placeDetails place.PlaceID with
  | .error e => .errored e
  | .ok details =>
    if details.Website == "" then .skipped
    else
      match processCompetitor env.api place.Name details.Website with
      | .error e => .errored e
      | .ok none => .skipped
      | .ok (some c) => .emitted c

/-- The competitors drained from the results channel.  The goroutines post in
completion order; the claims proved below are insensitive to that order, and
the collection is modelled in submission order. -/
def collectCompetitors (outcomes : List TaskOutcome) : List Competitor :=
  outcomes.filterMap fun o =>
    match o with
    | .emitted c => some c
    | _ => none

/-- Go SearchCompetitors: text-search for businesses (the only error that is
returned), fan out one task per place, drain the results channel, log the
errs channel, and return the result with TotalFound set to the number of
collected competitors. -/
def SearchCompetitors (env : SearchEnv) (location : String) :
    Except String CompetitorSearchResult :=
  match env.textSearch ("bounce house rentals in " ++ location) with
  | .error e => .error ("error searching for competitors: " ++ e)
  | .ok places =>
    let competitors := collectCompetitors ((places.map (runTask env)))
    .ok { Competitors := competitors
          Location := location
          TotalFound := competitors.length }

/-- C1: errors inside an individual business's pipeline never surface:
SearchCompetitors returns an error if and only if the initial text-search
query fails, whatever the per-business oracles do. -/
theorem SearchCompetitors_error_iff_textSearch_error
    (env : SearchEnv) (location : String) :
    (∃ e, SearchCompetitors env location = .error e) ↔
      (∃ e, env.textSearch ("bounce house rentals in " ++ location) =
        .error e) := by
  unfold SearchCompetitors
  cases h : env.textSearch ("bounce house rentals in " ++ location) with
  | error e => simp
  | ok places => simp


/-- A competitor returned by processCompetitor always carries a non-empty
product list (the isEmpty guard precedes its construction). -/
theorem processCompetitor_some_products_ne_nil (api : FirecrawlAPI)
    (name website : String) (c : Competitor) :
    processCompetitor api name website = .ok (some c) → c.Products ≠ [] := by
  intro h
  unfold processCompetitor at h
  split at h
  · exact absurd h (by simp)
  · split at h
    · exact absurd h (by simp)
    · rename_i urls hne
      simp only [Except.ok.injEq, Option.some.injEq] at h
      subst h
      simpa [List.isEmpty_iff] using hne

/-- Every emitted task outcome carries a competitor with a non-empty product
list. -/
theorem runTask_emitted_products_ne_nil (env : SearchEnv)
    (place : PlacesSearchResult) (c : Competitor) :
    runTask env place = .emitted c → c.Products ≠ [] := by
  intro hmem
  unfold runTask at hmem
  split at hmem
  · exact absurd hmem (by simp)
  · split at hmem
    · exact absurd hmem (by simp)
    · split at hmem
      · exact absurd hmem (by simp)
      · exact absurd hmem (by simp)
      · rename_i c1 hproc
        cases hmem
        exact processCompetitor_some_products_ne_nil _ _ _ _ hproc

/-- C2: a Competitor is emitted for a business exactly when the pipeline
extracted at least one Product for it: every competitor in a returned
SearchResult carries a non-empty product list; processCompetitor yields a
competitor iff its extracted product list is non-empty; and a business whose
URL phase succeeded but whose product list is empty yields neither a
competitor nor an error (Go: return nil, nil). -/
theorem competitor_emitted_iff_products_nonempty :
    (∀ (env : SearchEnv) (location : String) (r : CompetitorSearchResult),
        SearchCompetitors env location = .ok r →
          ∀ c ∈ r.Competitors, c.Products ≠ []) ∧
    (∀ (api : FirecrawlAPI) (name website : String),
        ((∃ c, processCompetitor api name website = .ok (some c)) ↔
          pipelineProducts api website ≠ []) ∧
        (∀ urls, urlPhase api website = .ok urls →
          extractLoop api.scrapeWebsite urls = [] →
            processCompetitor api name website = .ok none)) := by
  constructor
  · intro env location r hr c hc
    unfold SearchCompetitors at hr
    cases h : env.textSearch ("bounce house rentals in " ++ location) with
    | error e => rw [h] at hr; exact absurd hr (by simp)
    | ok places =>
      rw [h] at hr
      simp only [Except.ok.injEq] at hr
      subst hr
      simp only [collectCompetitors, List.mem_filterMap] at hc
      obtain ⟨o, homem, ho⟩ := hc
      obtain ⟨place, hplace, hrun⟩ := List.mem_map.mp homem
      cases o with
      | errored e => exact absurd ho (by simp)
      | skipped => exact absurd ho (by simp)
      | emitted c0 =>
        simp only [Option.some.injEq] at ho
        subst ho
        exact runTask_emitted_products_ne_nil env place _ hrun
  · intro api name website
    constructor
    · cases hu : urlPhase api website with
      | error e =>
        simp [processCompetitor, pipelineProducts, hu]
      | ok urls =>
        by_cases hp : (extractLoop api.scrapeWebsite urls).isEmpty
        · simp [processCompetitor, pipelineProducts, hu, hp,
            List.isEmpty_iff.mp hp]
        · have hp2 : extractLoop api.scrapeWebsite urls ≠ [] := by
            simpa [List.isEmpty_iff] using hp
          simp [processCompetitor, pipelineProducts, hu, hp, hp2]
    · intro urls hu hp
      simp [processCompetitor, hu, hp]

/-- C3: every successfully returned SearchResult has TotalFound equal to the
number of its competitors. -/
theorem SearchCompetitors_totalFound_eq_length
    (env : SearchEnv) (location : String) (r : CompetitorSearchResult) :
    SearchCompetitors env location = .ok r →
      r.TotalFound = r.Competitors.length := by
  intro hr
  unfold SearchCompetitors at hr
  cases h : env.textSearch ("bounce house rentals in " ++ location) with
  | error e => rw [h] at hr; exact absurd hr (by simp)
  | ok places =>
    rw [h] at hr
    simp only [Except.ok.injEq] at hr
    subst hr
    rfl

/-- Concrete firecrawl oracle for the C2 witness: mapping finds one catalog
URL, extraction fails on every page. -/
def apiW2 : FirecrawlAPI where
  mapWebsite := fun _ =>
    .ok { Success := true, Error := ""
          Links := some ["https://acme.example.com/products/a"] }
  crawlWebsite := fun _ => .error "unused"
  getCrawlStatus := fun _ _ => .error "unused"
  scrapeWebsite := fun _ => .error "extract failed"

/-- C2 witness: a business whose single relevant page fails extraction has an
empty product list and yields neither a competitor nor an error. -/
theorem competitor_emitted_iff_products_nonempty_witness :
    processCompetitor apiW2 "Acme" "https://acme.example.com" =
      Except.ok none :=
  (competitor_emitted_iff_products_nonempty.2 apiW2 "Acme"
    "https://acme.example.com").2 ["https://acme.example.com/products/a"]
    rfl rfl

/-- Concrete firecrawl oracle for the C3 witness: one business, one rentals
page, one product. -/
def apiW3 : FirecrawlAPI where
  mapWebsite := fun _ =>
    .ok { Success := true, Error := ""
          Links := some ["https://blue.example.com/rentals/castle"] }
  crawlWebsite := fun _ => .error "unused"
  getCrawlStatus := fun _ _ => .error "unused"
  scrapeWebsite := fun u =>
    .ok { Name := "Castle", Price := 150, URL := u, Category := "" }

/-- Concrete search environment for the C3 witness. -/
def envW3 : SearchEnv where
  textSearch := fun _ => .ok [{ PlaceID := "p1", Name := "Blue Bounce" }]
  placeDetails := fun _ => .ok { Website := "https://blue.example.com" }
  api := apiW3

/-- The SearchResult envW3 produces for Austin. -/
def resW3 : CompetitorSearchResult where
  Competitors :=
    [{ Name := "Blue Bounce", Website := "https://blue.example.com"
       Products := [{ Name := "Castle", Price := 150
                      URL := "https://blue.example.com/rentals/castle"
                      Category := "" }] }]
  Location := "Austin"
  TotalFound := 1

/-- C3 witness: on a concrete run producing one competitor, TotalFound is the
length of the competitor list. -/
theorem SearchCompetitors_totalFound_eq_length_witness :
    resW3.TotalFound = resW3.Competitors.length :=
  SearchCompetitors_totalFound_eq_length envW3 "Austin" resW3 rfl

/-- Failing input for C4: mapping fails, the crawl submission succeeds with
job id job-1, the first status check still reports the job scraping with no
documents, and every status check from attempt 1 onwards would report it
completed with a discovered catalog link whose extraction succeeds. -/
def apiC4 : FirecrawlAPI where
  mapWebsite := fun _ => .error "map failed"
  crawlWebsite := fun _ => .ok { Success := true, ID := "job-1" }
  getCrawlStatus := fun _ n =>
    if n = 0 then .ok { Status := "scraping", Data := [] }
    else .ok { Status := "completed"
               Data := [{ Links := ["https://biz.example.com/products/a"] }] }
  scrapeWebsite := fun u =>
    .ok { Name := "Bouncer A", Price := 199, URL := u, Category := "" }

/-- C4 (code bug, flagged in spec section 9): after submitting the crawl the
code checks the crawl status exactly once, immediately, with no backoff loop
and no terminal-state test (the Status field is never read); the embedding
accordingly consults the attempt-indexed status oracle only at attempt 0.
At the failing input apiC4 the job is non-terminal at that single check, so
the business yields no competitor — while responses from attempt 1 onwards
carry a catalog link whose extraction succeeds, which the specified
poll-to-terminal behavior would have collected. -/
theorem processCompetitor_checks_status_once_failing_input :
    processCompetitor apiC4 "Biz" "https://biz.example.com" = .ok none ∧
    apiC4.getCrawlStatus "job-1" 1 =
      .ok { Status := "completed"
            Data := [{ Links := ["https://biz.example.com/products/a"] }] } ∧
    extractLoop apiC4.scrapeWebsite
      (filterRelevantURLs ["https://biz.example.com/products/a"]) =
      [{ Name := "Bouncer A", Price := 199
         URL := "https://biz.example.com/products/a", Category := "" }] :=
  ⟨rfl, rfl, rfl⟩

/-- The result of processCompetitor depends on the status oracle only through
attempt 0: replacing every later attempt by arbitrary responses changes
nothing.  (Supporting fact for the single-check behavior.) -/
theorem processCompetitor_ignores_later_status_attempts
    (api : FirecrawlAPI)
    (f : String → Nat → Except String CrawlStatusResponse)
    (name website : String) :
    processCompetitor
      { api with getCrawlStatus := fun id n =>
          if n = 0 then api.getCrawlStatus id 0 else f id n }
      name website =
    processCompetitor api name website := rfl

/-! ## ScrapeWebsite parsing (firecrawl_service.go lines 192-280) -/

/-- A decoded JSON value, the shape Go's json.Unmarshal delivers into
interface-typed fields. -/
inductive Json where
  | str (s : String)
  | num (q : Rat)
  | bool (b : Bool)
  | null
  | arr (elems : List Json)
  | obj (fields : List (String × Json))

/-- Go map lookup on a decoded JSON object (json.Unmarshal produces unique
keys). -/
def jsonLookup : List (String × Json) → String → Option Json
  | [], _ => none
  | (k, v) :: rest, key => if k == key then some v else jsonLookup rest key

/-- The Go type assertion x.(string): yields the string when the value is
present and is a string, and panics otherwise (a missing key reads as a nil
interface, which also fails the assertion). -/
def asString : Option Json → Option String
  | some (Json.str s) => some s
  | _ => none

/-- Whether a character is an ASCII digit. -/
def isDigit (c : Char) : Bool := '0' ≤ c && c ≤ '9'

/-- The natural number denoted by a digit sequence (0 for the empty one). -/
def natFromDigits (cs : List Char) : Nat :=
  cs.foldl (fun acc c => acc * 10 + (c.toNat - '0'.toNat)) 0

/-- Go strconv.ParseFloat on its plain decimal fragment (optional sign,
digits, at most one point, at least one digit); exponent, hex and infinity
forms are outside the fragment this development exercises, and the value is
exact rather than rounded to float64. -/
def goParseFloat (s : String) : Option Rat :=
  let signAndRest : Rat × List Char :=
    match s.data with
    | '-' :: t => (-1, t)
    | '+' :: t => (1, t)
    | cs => (1, cs)
  let rest := signAndRest.2
  let intPart := rest.takeWhile isDigit
  let after := rest.drop intPart.length
  match after with
  | [] =>
    if intPart.isEmpty then none
    else some (signAndRest.1 * (natFromDigits intPart : Rat))
  | '.' :: frac =>
    if frac.all isDigit && (!intPart.isEmpty || !frac.isEmpty) then
      some (signAndRest.1 *
        ((natFromDigits intPart : Rat) +
          (natFromDigits frac : Rat) / ((10 : Rat) ^ frac.length)))
    else none
  | _ => none

/-- What one ScrapeWebsite call can come to after its response is decoded:
a product, a returned error, or a runtime panic from a failed type
assertion (which would crash the goroutine, not return). -/
inductive ScrapeOutcome where
  | ok (p : Product)
  | err (msg : String)
  | crashed
deriving DecidableEq, Repr

/-- The parsing tail of Go ScrapeWebsite, from the decoded extract object
onwards: assert extract.price to string (panic on absence or non-string),
parse it with strconv.ParseFloat (an unparsable price returns an error for
the whole page), then assert name and url to string and build the Product;
the Category field keeps its zero value. -/
def scrapeExtract (extractedProduct : List (String × Json)) : ScrapeOutcome :=
  match asString (jsonLookup extractedProduct "price") with
  | none => .crashed
  | some priceStr =>
    match goParseFloat priceStr with
    | none => .err "failed to parse price for product"
    | some price =>
      match asString (jsonLookup extractedProduct "name") with
      | none => .crashed
      | some nm =>
        match asString (jsonLookup extractedProduct "url") with
        | none => .crashed
        | some u => .ok { Name := nm, Price := price, URL := u, Category := "" }

/-- The products one page contributes: the extracted product on success,
nothing on a returned error (processCompetitor skips the page) and nothing
on a crash. -/
def pageProductsOf (o : ScrapeOutcome) : List Product :=
  match o with
  | .ok p => [p]
  | _ => []

/-- A response whose extract carries two products, one with an unparsable
price and one with a valid price, in the products-array shape of the
repository's own ExtractSchema declaration. -/
def twoProductExtract : List (String × Json) :=
  [("products", Json.arr
    [Json.obj [("name", Json.str "Broken"), ("price", Json.str "N/A"),
               ("url", Json.str "https://x.example.com/p1")],
     Json.obj [("name", Json.str "Good"), ("price", Json.str "199.99"),
               ("url", Json.str "https://x.example.com/p2")]])]

/-- C5 counterexample: the claim "an extraction response containing one
product with an unparsable price and one with a valid price yields exactly
the valid product" fails on the code: ScrapeWebsite decodes a single
product object, so the only response shape carrying two products (the
products array of the repository's ExtractSchema) has no top-level price
string and dies on the failed type assertion — the page contributes no
product at all, not the valid one. -/
theorem scrapeExtract_two_product_counterexample :
    scrapeExtract twoProductExtract = ScrapeOutcome.crashed ∧
    pageProductsOf (scrapeExtract twoProductExtract) = [] ∧
    pageProductsOf (scrapeExtract twoProductExtract) ≠
      [{ Name := "Good", Price := 19999 / 100
         URL := "https://x.example.com/p2", Category := "" }] :=
  ⟨rfl, rfl, by decide⟩

/-- C5 (amended): extraction is single-product per page: when the decoded
extract object holds a price string that does not parse, the whole page's
extraction returns an error and contributes no product; when name, price and
url are present and the price parses, exactly that one product is returned;
and the extraction loop of processCompetitor skips failed pages while
keeping every successfully extracted page's product, so a malformed price
drops only its own page. -/
theorem ScrapeWebsite_single_product_price_parse :
    (∀ (m : List (String × Json)) (priceStr : String),
        jsonLookup m "price" = some (Json.str priceStr) →
        goParseFloat priceStr = none →
          scrapeExtract m = .err "failed to parse price for product" ∧
          pageProductsOf (scrapeExtract m) = []) ∧
    (∀ (m : List (String × Json)) (nm priceStr u : String) (q : Rat),
        jsonLookup m "name" = some (Json.str nm) →
        jsonLookup m "price" = some (Json.str priceStr) →
        jsonLookup m "url" = some (Json.str u) →
        goParseFloat priceStr = some q →
          scrapeExtract m =
            .ok { Name := nm, Price := q, URL := u, Category := "" }) ∧
    (∀ (scrape : String → Except String Product) (urls : List String),
        extractLoop scrape urls = urls.filterMap fun x =>
          match scrape x with
          | .ok p => some p
          | .error _ => none) := by
  refine ⟨?_, ?_, ?_⟩
  · intro m priceStr hprice hparse
    constructor
    · simp [scrapeExtract, hprice, asString, hparse]
    · simp [pageProductsOf, scrapeExtract, hprice, asString, hparse]
  · intro m nm priceStr u q hname hprice hurl hparse
    simp [scrapeExtract, hprice, hname, hurl, asString, hparse]
  · intro scrape urls
    induction urls with
    | nil => rfl
    | cons x rest ih =>
      cases h : scrape x with
      | error e => simp [extractLoop, h, ih]
      | ok p => simp [extractLoop, h, ih]

/-- Decoded extract object of a page whose price does not parse. -/
def badPriceExtract : List (String × Json) :=
  [("name", Json.str "Bouncer A"), ("price", Json.str "N/A"),
   ("url", Json.str "https://x.example.com/p1")]

/-- Decoded extract object of a page whose price parses. -/
def goodPriceExtract : List (String × Json) :=
  [("name", Json.str "Bouncer B"), ("price", Json.str "199.99"),
   ("url", Json.str "https://x.example.com/p2")]

/-- The concrete price string 199.99 parses to the exact rational 19999/100. -/
theorem goParseFloat_199_99 : goParseFloat "199.99" = some (19999 / 100) := by
  have h : goParseFloat "199.99" =
      some ((1 : Rat) * ((natFromDigits ['1', '9', '9'] : Rat) +
        (natFromDigits ['9', '9'] : Rat) / (10 : Rat) ^ 2)) := rfl
  have h1 : natFromDigits ['1', '9', '9'] = 199 := rfl
  have h2 : natFromDigits ['9', '9'] = 99 := rfl
  rw [h, h1, h2]
  norm_num

/-- C5 witness: the amended behavior at concrete pages — the malformed-price
page errors out and the valid page yields its one product. -/
theorem ScrapeWebsite_single_product_price_parse_witness :
    scrapeExtract badPriceExtract =
      ScrapeOutcome.err "failed to parse price for product" ∧
    scrapeExtract goodPriceExtract =
      ScrapeOutcome.ok { Name := "Bouncer B", Price := 19999 / 100
                         URL := "https://x.example.com/p2", Category := "" } :=
  ⟨(ScrapeWebsite_single_product_price_parse.1 badPriceExtract "N/A"
      rfl rfl).1,
   ScrapeWebsite_single_product_price_parse.2.1 goodPriceExtract "Bouncer B"
      "199.99" "https://x.example.com/p2" (19999 / 100) rfl rfl rfl
      goParseFloat_199_99⟩

/-! ## The concurrency gate of SearchCompetitors (competitor_service.go
lines 93-101): a buffered channel of capacity 5 used as a semaphore.  Each
goroutine sends one token before any network call and receives it back in a
defer, so the release runs on every exit path, error returns included.  The
channel is modelled as a step relation on the phases of the spawned tasks:
a send succeeds only while fewer than cap tasks hold a slot. -/

/-- The phase of one spawned task: not yet past the semaphore send, holding
a slot (executing its pipeline and network calls), or finished with its slot
given back (the Bool records whether it exited on an error path — the
deferred receive runs either way). -/
inductive TaskPhase where
  | idle
  | running
  | done (errored : Bool)
deriving DecidableEq, Repr

/-- Whether a task currently holds a semaphore slot. -/
def isRunning : TaskPhase → Bool
  | .running => true
  | _ => false

/-- How many tasks hold a slot: the occupancy of the semaphore channel. -/
def runningCount (l : List TaskPhase) : Nat := l.countP isRunning

/-- One scheduler step: an idle task acquires the gate (the channel send,
possible only while the buffer has room, i.e. occupancy < cap), or a running
task finishes — successfully or on an error path — and its deferred receive
releases the slot. -/
inductive SemStep (cap : Nat) : List TaskPhase → List TaskPhase → Prop where
  | acquire (pre post : List TaskPhase)
      (hcap : runningCount (pre ++ TaskPhase.idle :: post) < cap) :
      SemStep cap (pre ++ TaskPhase.idle :: post)
        (pre ++ TaskPhase.running :: post)
  | release (pre post : List TaskPhase) (errored : Bool) :
      SemStep cap (pre ++ TaskPhase.running :: post)
        (pre ++ TaskPhase.done errored :: post)

theorem semStep_preserves_bound {cap : Nat} {s t : List TaskPhase}
    (h : SemStep cap s t) (hs : runningCount s ≤ cap) :
    runningCount t ≤ cap := by
  cases h with
  | acquire pre post hcap =>
    unfold runningCount at hcap ⊢
    rw [List.countP_append, List.countP_cons] at hcap ⊢
    simp [isRunning] at hcap ⊢
    omega
  | release pre post errored =>
    unfold runningCount at hs ⊢
    rw [List.countP_append, List.countP_cons] at hs ⊢
    simp [isRunning] at hs ⊢
    omega

theorem runningCount_replicate_idle (n : Nat) :
    runningCount (List.replicate n TaskPhase.idle) = 0 := by
  induction n with
  | zero => rfl
  | succ k ih =>
    unfold runningCount at ih ⊢
    rw [List.replicate_succ, List.countP_cons]
    simp [isRunning, ih]

/-- C9: with a gate of size cap, in every state reachable from n spawned
tasks (n arbitrary, e.g. 20 resolvable businesses with cap = 5) at most cap
tasks hold a semaphore slot — so at no observable instant do more than cap
business pipelines execute their network calls concurrently; acquisition
precedes the work and the release step exists for error exits as well. -/
theorem semaphore_bound_invariant (cap n : Nat) (s : List TaskPhase)
    (h : Relation.ReflTransGen (SemStep cap)
      (List.replicate n TaskPhase.idle) s) :
    runningCount s ≤ cap := by
  induction h with
  | refl =>
    rw [runningCount_replicate_idle]
    exact Nat.zero_le cap
  | tail _ hstep ih => exact semStep_preserves_bound hstep ih

/-- C9 witness: with gate size 5 and 20 tasks, after the first task acquires
the gate the occupancy is (at most) 5. -/
theorem semaphore_bound_invariant_witness :
    runningCount (TaskPhase.running :: List.replicate 19 TaskPhase.idle)
      ≤ 5 :=
  semaphore_bound_invariant 5 20
    (TaskPhase.running :: List.replicate 19 TaskPhase.idle)
    (Relation.ReflTransGen.single
      (SemStep.acquire [] (List.replicate 19 TaskPhase.idle) (by decide)))

/-! ## CalculateAveragePrice (AnalysisService) -/

/-- Go type Location (firebase_service.go): a stored location document. -/
structure Location where
  Name : String
  Competitors : List Competitor
deriving DecidableEq, Repr

/-- The FirebaseService collaborator as seen by CalculateAveragePrice. -/
structure AnalysisEnv where
  getLocation : String → Except String Location

/-- The inner loop of CalculateAveragePrice over one competitor's products:
a product of the requested category adds its price to the running total and
one to the running count. -/
def productTally (category : String) :
    Rat × Nat → List Product → Rat × Nat
  | acc, [] => acc
  | acc, p :: rest =>
    if p.Category == category then
      productTally category (acc.1 + p.Price, acc.2 + 1) rest
    else productTally category acc rest

/-- The outer loop of CalculateAveragePrice over the location's
competitors. -/
def competitorTally (category : String) :
    Rat × Nat → List Competitor → Rat × Nat
  | acc, [] => acc
  | acc, c :: rest =>
    competitorTally category (productTally category acc c.Products) rest

/-- Go CalculateAveragePrice: retrieve the location (propagating a retrieval
error), tally total and count over the matching products, return an error
when the count is zero, and only otherwise divide. -/
def CalculateAveragePrice (env : AnalysisEnv)
    (locationName category : String) : Except String Rat :=
  match env.getLocation locationName with
  | .error e => .error ("error retrieving location data: " ++ e)
  | .ok location =>
    if (competitorTally category (0, 0) location.Competitors).2 = 0 then
      .error ("no products found for category " ++ category)
    else
      .ok ((competitorTally category (0, 0) location.Competitors).1 /
        ((competitorTally category (0, 0) location.Competitors).2 : Rat))

/-- Modelled from the claim's words: the products of the requested category
across all competitors of the location. -/
def matchingProducts (location : Location) (category : String) :
    List Product :=
  ((location.Competitors.map Competitor.Products).flatten).filter
    (fun p => p.Category == category)

/-- Modelled from the claim's words: the sum of a product list's prices. -/
def sumPrices (ps : List Product) : Rat := (ps.map Product.Price).sum

theorem productTally_eq (category : String) (ps : List Product)
    (acc : Rat × Nat) :
    productTally category acc ps =
      (acc.1 + sumPrices (ps.filter fun p => p.Category == category),
       acc.2 + (ps.filter fun p => p.Category == category).length) := by
  induction ps generalizing acc with
  | nil => simp [productTally, sumPrices]
  | cons p rest ih =>
    by_cases h : (p.Category == category) = true
    · rw [productTally, if_pos h, ih]
      simp only [List.filter_cons, h, if_true, sumPrices, List.map_cons,
        List.sum_cons, List.length_cons, Prod.mk.injEq]
      constructor
      · ring
      · omega
    · rw [productTally, if_neg h, ih]
      simp only [List.filter_cons, h, Bool.false_eq_true, if_false]

theorem competitorTally_eq (category : String) (cs : List Competitor)
    (acc : Rat × Nat) :
    competitorTally category acc cs =
      (acc.1 + sumPrices (((cs.map Competitor.Products).flatten).filter
        (fun p => p.Category == category)),
       acc.2 + (((cs.map Competitor.Products).flatten).filter
        (fun p => p.Category == category)).length) := by
  induction cs generalizing acc with
  | nil => simp [competitorTally, sumPrices]
  | cons c rest ih =>
    rw [competitorTally, ih, productTally_eq]
    simp only [List.map_cons, List.flatten_cons, List.filter_append,
      sumPrices, List.map_append, List.sum_append, List.length_append,
      Prod.mk.injEq]
    constructor
    · ring
    · omega

/-- C10: for a retrievable location and any category, CalculateAveragePrice
returns the no-products error exactly when no product of that category is
stored for the location (so the division is never reached then), and
otherwise returns the sum of the matching products' prices divided by their
count. -/
theorem CalculateAveragePrice_guarded_average (env : AnalysisEnv)
    (locationName category : String) (location : Location)
    (h : env.getLocation locationName = .ok location) :
    (CalculateAveragePrice env locationName category =
        .error ("no products found for category " ++ category) ↔
      matchingProducts location category = []) ∧
    (matchingProducts location category ≠ [] →
      CalculateAveragePrice env locationName category =
        .ok (sumPrices (matchingProducts location category) /
          ((matchingProducts location category).length : Rat))) := by
  have hc := competitorTally_eq category location.Competitors (0, 0)
  simp only [CalculateAveragePrice, h, hc, zero_add, matchingProducts]
  by_cases hl :
      (((location.Competitors.map Competitor.Products).flatten).filter
        (fun p => p.Category == category)).length = 0
  · rw [if_pos hl]
    rw [List.length_eq_zero] at hl
    simp [hl]
  · rw [if_neg hl]
    have hne : ((location.Competitors.map Competitor.Products).flatten).filter
        (fun p => p.Category == category) ≠ [] := by
      intro hnil
      exact hl (by rw [hnil]; rfl)
    exact ⟨⟨fun habs => absurd habs (by simp),
      fun hnil => absurd hnil hne⟩, fun _ => rfl⟩

/-- Stored location for the C10 witness: one competitor with one Bounce
House product and one Water Slide product. -/
def locW10 : Location where
  Name := "Austin"
  Competitors :=
    [{ Name := "Blue Bounce", Website := "https://blue.example.com"
       Products :=
        [{ Name := "Castle", Price := 150, URL := "u1"
           Category := "Bounce House" },
         { Name := "Slide", Price := 75, URL := "u2"
           Category := "Water Slide" }] }]

/-- Storage environment for the C10 witness. -/
def envW10 : AnalysisEnv where
  getLocation := fun n => if n == "Austin" then .ok locW10 else .error "missing"

/-- C10 witness: at the concrete stored location, the Bounce House average
is the single matching price. -/
theorem CalculateAveragePrice_guarded_average_witness :
    CalculateAveragePrice envW10 "Austin" "Bounce House" = .ok 150 := by
  have h := (CalculateAveragePrice_guarded_average envW10 "Austin"
    "Bounce House" locW10 rfl).2 (by decide)
  rw [h]
  have hm : matchingProducts locW10 "Bounce House" =
      [{ Name := "Castle", Price := 150, URL := "u1"
         Category := "Bounce House" }] := rfl
  rw [hm]
  norm_num [sumPrices]
